import Mathlib

/-!
Shallow embedding of `zoho_bulk.py` (bulk record-update client for a CRM REST
API): configuration constants, the `_chunks` helper, the retrying `_request`
transport wrapper, the `_update_chunk` mutation-plus-reconciliation routine,
`bulk_update`, and the selector guard of `fetch_records`.

The remote HTTP environment is modelled by oracles: a function giving, for
each attempt of a request, the response (status plus parsed body) or the
network exception that attempt observes.  Exception message text (Python's
`str(e)`) is carried as an abstract string where the code interpolates it;
all status codes, error codes and control flow follow the source.
-/

namespace ZohoBulk

/-! ### Configuration constants (zoho_bulk.py lines 24-39) -/

def MODULE_API_NAME : String := "Leads"
def FIELD_TO_UPDATE : String := "Lead_Status"
def PER_PAGE : Nat := 200
def IDS_PER_REQUEST : Nat := 100
def CHUNK_SIZE : Nat := 100
def MAX_RETRY : Nat := 3
def BACKOFF : Nat := 2

def VALID_STATUSES : List String :=
  ["Not Contacted", "Self Storage Questions Sent", "Move Questionnaire Sent",
   "Move Questionnaire Follow Up", "Move Questionnaire Completed",
   "Onsite Survey Booked", "On Hold", "Duplicate Lead", "Closed Lost",
   "Junk Lead", "Not Qualified"]

/-! ### Python string helpers

`pyStrip` models `str.strip()` (drop leading and trailing whitespace);
`isDigitStr` models `str.isdigit()` (non-empty and all digits). -/

def pyStrip (s : String) : String :=
  ⟨((s.data.dropWhile Char.isWhitespace).reverse.dropWhile Char.isWhitespace).reverse⟩

def isDigitStr (s : String) : Bool :=
  !s.data.isEmpty && s.data.all Char.isDigit

/-! ### `_chunks` (lines 60-64)

`for i in range(0, len(seq), n): yield seq[i:i+n]`.  Defined structurally on
a fuel argument (initialised to the list length, which suffices whenever
`0 < n`; the code only ever calls it with 100). -/

def chunksF (n : Nat) : Nat → List α → List (List α)
  | 0, _ => []
  | _, [] => []
  | fuel + 1, x :: xs => ((x :: xs).take n) :: chunksF n fuel ((x :: xs).drop n)

def chunks (n : Nat) (l : List α) : List (List α) :=
  chunksF n l.length l

/-! ### Responses and the `_request` transport wrapper (lines 66-106)

A parsed response body is either JSON carrying a `data` array (of per-record
items) and an optional `info.more_records` flag, or undecodable text.  An
`Item` models one element of a response `data` array or one outcome record:
optional top-level `id`, optional nested `details.id`, and the
status/code/message fields the code reads or writes. -/

structure Item where
  id : Option String
  detailsId : Option String
  status : Option String
  code : Option String
  message : Option String
deriving DecidableEq

inductive Body where
  | json (data : List Item) (infoMore : Option Bool)
  | invalid (raw : String)
deriving DecidableEq

structure Response where
  status : Nat
  body : Body
deriving DecidableEq

/-- What one attempt inside `_request`'s retry loop observes: a response, or a
`requests` exception that is not an `HTTPError` from `raise_for_status`
(connection error, timeout, ...), carrying `getattr(e, 'response', None)`. -/
inductive Attempt where
  | resp (r : Response)
  | exc (msg : String) (r : Option Response)
deriving DecidableEq

/-- The result of `_request`: a returned response, a raised
`requests.HTTPError` (carrying its optional attached response), or a re-raised
non-HTTP request exception. -/
inductive ReqResult where
  | success (r : Response)
  | raisedHTTP (r : Option Response)
  | raisedExc (msg : String)
deriving DecidableEq

/-- Trace of one `_request` call: its outcome, how many attempts the loop
made, and the `time.sleep` durations in order. -/
structure ReqTrace where
  result : ReqResult
  attempts : Nat
  sleeps : List Nat
deriving DecidableEq

def backoffDelay (attempt : Nat) : Nat := BACKOFF * 2 ^ (attempt - 1)

def isRetryableStatus (s : Nat) : Bool :=
  s == 429 || s == 500 || s == 502 || s == 503 || s == 504

/-- The retry loop of `_request`.  `remaining` counts attempts still allowed
including the current one (so `remaining = 1` means `attempt == MAX_RETRY`);
`attempt` is the 1-based attempt number; `last` is the `last` variable.
Statuses 400-599 outside the transient set make `raise_for_status` throw an
`HTTPError`, which the `except RequestException` clause catches and retries
until the final attempt re-raises it. -/
def requestGo (oracle : Nat → Attempt) :
    Nat → Nat → Option Response → List Nat → ReqTrace
  | 0, attempt, last, sleeps =>
    -- loop fell through: every attempt hit a retryable status
    match last with
    | some r => ⟨.raisedHTTP (some r), attempt - 1, sleeps⟩
    | none => ⟨.raisedHTTP none, attempt - 1, sleeps⟩
  | remaining + 1, attempt, last, sleeps =>
    match oracle attempt with
    | .resp r =>
      if r.status == 204 then ⟨.success r, attempt, sleeps⟩
      else if isRetryableStatus r.status then
        requestGo oracle remaining (attempt + 1) (some r)
          (sleeps ++ [backoffDelay attempt])
      else if 400 ≤ r.status && r.status < 600 then
        if remaining == 0 then ⟨.raisedHTTP (some r), attempt, sleeps⟩
        else requestGo oracle remaining (attempt + 1) (some r)
          (sleeps ++ [backoffDelay attempt])
      else ⟨.success r, attempt, sleeps⟩
    | .exc msg ropt =>
      if remaining == 0 then ⟨.raisedExc msg, attempt, sleeps⟩
      else requestGo oracle remaining (attempt + 1) ropt
        (sleeps ++ [backoffDelay attempt])

def request (oracle : Nat → Attempt) : ReqTrace :=
  requestGo oracle MAX_RETRY 1 none []

/-! ### `_update_chunk` (lines 258-324)

The PUT's outcome and each per-missing-id probe GET's outcome are supplied as
`ReqResult` oracles (they are whatever `_request` produces for those calls). -/

/-- The key under which a response item's id is looked up when building the
`got` set: `str(i.get("details", {}).get("id", i.get("id",
"UNKNOWN_ID_IN_RESPONSE"))).strip()`. -/
def respKey (it : Item) : String :=
  pyStrip (it.detailsId.getD (it.id.getD "UNKNOWN_ID_IN_RESPONSE"))

def gotOf (items : List Item) : List String := items.map respKey

/-- `missing = [i for i in ids_sent if str(i).strip() not in got]`. -/
def missingOf (ids_sent : List String) (items : List Item) : List String :=
  ids_sent.filter fun i => !((gotOf items).contains (pyStrip i))

/-- Classification of one missing-id probe (lines 286-319): the code/message
pair chosen from the probe request's outcome. -/
def classifyProbe : ReqResult → String × String
  | .success r =>
    if r.status == 200 then
      ("POSSIBLY_UPDATED_BUT_MISSING_IN_RESPONSE",
       "Record found, may have updated but wasn't in bulk response.")
    else if r.status == 204 then
      ("NOT_FOUND_ON_CHECK",
       "Record not found when checking status after missing bulk response.")
    else
      (s!"CHECK_FAILED_STATUS_{r.status}",
       s!"Failed to check status for missing ID. Status: {r.status}")
  | .raisedHTTP ropt =>
    match ropt with
    | some r =>
      if r.status == 404 then
        ("NOT_FOUND_ON_CHECK",
         "Record not found when checking status after missing bulk response.")
      else if r.status == 403 then
        ("PERMISSION_DENIED_ON_CHECK",
         "Permission denied when checking status for missing ID.")
      else
        (s!"CHECK_FAILED_HTTPERROR_{r.status}",
         s!"Failed to check status for missing ID due to HTTPError: {r.status}")
    | none =>
      ("CHECK_FAILED_HTTPERROR_Unknown",
       "Failed to check status for missing ID due to HTTPError: no response")
  | .raisedExc msg =>
    ("CHECK_FAILED_UNKNOWN_ERROR",
     s!"Failed to check status for missing ID due to an unexpected error: {msg}")

/-- The outcome record appended for one missing id (line 321). -/
def mkProbeItem (probe : String → ReqResult) (mid : String) : Item :=
  { id := some mid, detailsId := none, status := some "error",
    code := some (classifyProbe (probe mid)).1,
    message := some (classifyProbe (probe mid)).2 }

/-- The reconciliation-probe records appended after the chunk's direct
results: one per missing id, in `missing` order. -/
def probeItems (probe : String → ReqResult) (ids_sent : List String)
    (items : List Item) : List Item :=
  (missingOf ids_sent items).map (mkProbeItem probe)

/-- The outcome record built for every sent id when the PUT returns 204
(lines 268-269). -/
def noContentItem (i : String) : Item :=
  { id := some i, detailsId := none, status := some "error",
    code := some "NO_CONTENT",
    message := some "Zoho returned 204 No Content, status unknown." }

/-- One `{"id": ..., FIELD_TO_UPDATE: ...}` element of the PUT payload. -/
structure PayloadItem where
  id : String
  leadStatus : String
deriving DecidableEq

/-- An exception escaping `_update_chunk`: a `requests.HTTPError` (with the
status of its attached response, if any) or any other exception. -/
inductive ChunkErr where
  | http (status : Option Nat)
  | other (msg : String)
deriving DecidableEq

/-- `_update_chunk`: submit the chunk payload, branch on 204, parse the body
(an undecodable body re-raises as `HTTPError` with the response attached),
diff the submitted ids against the response, and append one probe-derived
record per missing id. -/
def update_chunk (payload : List PayloadItem) (mutRes : ReqResult)
    (probe : String → ReqResult) : Except ChunkErr (List Item) :=
  let ids_sent := payload.map (·.id)
  match mutRes with
  | .raisedHTTP ropt => .error (.http (ropt.map (·.status)))
  | .raisedExc msg => .error (.other msg)
  | .success res =>
    if res.status == 204 then
      .ok (ids_sent.map noContentItem)
    else
      match res.body with
      | .invalid _ => .error (.http (some res.status))
      | .json items _ => .ok (items ++ probeItems probe ids_sent items)

/-! ### `bulk_update` (lines 327-372)

An input row is a Python dict; the code reads `r.get("id", ...)` (modelled as
the `str()` image of the value, when present) and `r.get("status")`.  The
remote environment is a `BulkWorld`: the `ReqResult` of the PUT for the chunk
at each 1-based index, and of each probe GET inside that chunk. -/

structure Row where
  id : Option String
  status : Option String
deriving DecidableEq

/-- Python truthiness of `r.get("status")`: present and non-empty. -/
def truthyStatus : Option String → Bool
  | none => false
  | some s => !(s == "")

/-- Membership of a row in the validation `bad` set (line 330):
`r.get("status") and r["status"] not in valid_statuses_set`. -/
def rowBad (r : Row) : Bool :=
  truthyStatus r.status && !(VALID_STATUSES.contains (r.status.getD ""))

/-- The offending status values (the comprehension's set, as a deduplicated
list in first-occurrence order). -/
def badList (rows : List Row) : List String :=
  ((rows.filter rowBad).map fun r => r.status.getD "").dedup

/-- The payload filter of line 343:
`str(r.get("id", "")).isdigit() and r.get("status")`. -/
def rowWellFormed (r : Row) : Bool :=
  isDigitStr (r.id.getD "") && truthyStatus r.status

/-- `payload = [{"id": str(r["id"]), FIELD_TO_UPDATE: r["status"]} for r in
chunk if ...]` (line 343). -/
def mkPayload (chunk : List Row) : List PayloadItem :=
  chunk.filterMap fun r =>
    if rowWellFormed r then some ⟨r.id.getD "", r.status.getD ""⟩ else none

def chunkFailHTTPCode (status : Option Nat) : String :=
  "CHUNK_FAILED_HTTP_" ++ (match status with
    | some s => toString s
    | none => "NETWORK_ERROR")

/-- The outcome record written for each row of a chunk whose request raised
`requests.HTTPError` (lines 358-361). -/
def chunkFailHTTPItem (status : Option Nat) (r : Row) : Item :=
  { id := some (r.id.getD "UNKNOWN_IN_FAILED_CHUNK"), detailsId := none,
    status := some "error", code := some (chunkFailHTTPCode status),
    message := some "Chunk failed: HTTPError" }

/-- The outcome record written for each row of a chunk whose request raised
any other exception (lines 365-368). -/
def chunkFailUnknownItem (msg : String) (r : Row) : Item :=
  { id := some (r.id.getD "UNKNOWN_IN_FAILED_CHUNK"), detailsId := none,
    status := some "error", code := some "CHUNK_FAILED_UNKNOWN",
    message := some s!"Chunk failed unexpectedly: {msg}" }

structure BulkWorld where
  mutR : Nat → ReqResult
  probe : Nat → String → ReqResult

/-- What one loop iteration of `bulk_update` contributes: outcome records
appended to `out`, progress-callback invocations, and mutation-submit
requests actually issued (1-based chunk index with the payload sent). -/
structure ChunkEffect where
  out : List Item
  progress : List Nat
  puts : List (Nat × List PayloadItem)
deriving DecidableEq

/-- One iteration of the loop at lines 342-369 for the chunk at 1-based index
`idx`: build the filtered payload, skip entirely when it is empty, otherwise
submit via `_update_chunk` and on an escaping exception record every row of
the *original* chunk with a chunk-failure code; the progress hook fires in
all three non-skip branches. -/
def processChunk (w : BulkWorld) (idx : Nat) (chunk : List Row) : ChunkEffect :=
  if (mkPayload chunk).isEmpty then ⟨[], [], []⟩
  else
    match update_chunk (mkPayload chunk) (w.mutR idx) (w.probe idx) with
    | .ok items => ⟨items, [idx], [(idx, mkPayload chunk)]⟩
    | .error (.http s) =>
      ⟨chunk.map (chunkFailHTTPItem s), [idx], [(idx, mkPayload chunk)]⟩
    | .error (.other msg) =>
      ⟨chunk.map (chunkFailUnknownItem msg), [idx], [(idx, mkPayload chunk)]⟩

/-- The whole loop, chunk list enumerated from `idx`. -/
def bulkGo (w : BulkWorld) : Nat → List (List Row) → ChunkEffect
  | _, [] => ⟨[], [], []⟩
  | idx, c :: cs =>
    let e := processChunk w idx c
    let rest := bulkGo w (idx + 1) cs
    ⟨e.out ++ rest.out, e.progress ++ rest.progress, e.puts ++ rest.puts⟩

/-- The `ValueError` of line 331, carrying the offending status values. -/
inductive BulkErr where
  | validation (bad : List String)
deriving DecidableEq

/-- `bulk_update`: validate every row's status against `VALID_STATUSES`
(raising before any network activity — the result of the error branch does
not consult the world), then process the `_chunks(rows, CHUNK_SIZE)` chunks
in order, isolating per-chunk failures. -/
def bulk_update (w : BulkWorld) (rows : List Row) : Except BulkErr ChunkEffect :=
  if !(badList rows).isEmpty then .error (.validation (badList rows))
  else .ok (bulkGo w 1 (chunks CHUNK_SIZE rows))

/-! ### `fetch_records` (lines 129-237)

Only what the selector-exclusivity guard needs: the two `ValueError` guards,
then either the custom-view pagination loop (its unbounded `while True` is
run on a fuel bound; exhausted fuel returns what was accumulated) or the
id-chunk loop.  The world gives each GET's outcome by page number or by
0-based chunk index. -/

inductive FetchErr where
  | config (msg : String)
  | transport (status : Option Nat)
  | exc (msg : String)
deriving DecidableEq

structure FetchWorld where
  page : Nat → ReqResult
  chunkGet : Nat → ReqResult

def truthyOptStr : Option String → Bool
  | none => false
  | some s => !(s == "")

def truthyOptList : Option (List String) → Bool
  | none => false
  | some l => !l.isEmpty

/-- The custom-view pagination loop (lines 177-207). -/
def fetchCV (w : FetchWorld) (fetchAll : Bool) :
    Nat → Nat → List Item → Except FetchErr (List Item)
  | 0, _, acc => .ok acc
  | fuel + 1, page, acc =>
    match w.page page with
    | .success r =>
      if r.status == 204 then .ok acc
      else
        match r.body with
        | .invalid _ => .error (.transport (some r.status))
        | .json data infoMore =>
          if data.isEmpty then .ok acc
          else
            let more := match infoMore with
              | some b => b
              | none => data.length == PER_PAGE
            if fetchAll && more then fetchCV w fetchAll fuel (page + 1) (acc ++ data)
            else .ok (acc ++ data)
    | .raisedHTTP ropt => .error (.transport (ropt.map (·.status)))
    | .raisedExc msg => .error (.exc msg)

/-- The fetch-by-ids chunk loop (lines 212-234). -/
def fetchIDs (w : FetchWorld) :
    Nat → List (List String) → List Item → Except FetchErr (List Item)
  | _, [], acc => .ok acc
  | i, _ :: cs, acc =>
    match w.chunkGet i with
    | .success r =>
      if r.status == 204 then fetchIDs w (i + 1) cs acc
      else
        match r.body with
        | .invalid _ => .error (.transport (some r.status))
        | .json data _ => fetchIDs w (i + 1) cs (acc ++ data)
    | .raisedHTTP ropt => .error (.transport (ropt.map (·.status)))
    | .raisedExc msg => .error (.exc msg)

/-- `fetch_records`: selector guards first (lines 157-160), then one of the
two retrieval paths. -/
def fetch_records (w : FetchWorld) (cvid : Option String)
    (ids : Option (List String)) (fetchAll : Bool) (fuel : Nat) :
    Except FetchErr (List Item) :=
  if truthyOptStr cvid && truthyOptList ids then
    .error (.config "Provide either 'cvid' or 'ids', not both.")
  else if !truthyOptStr cvid && !truthyOptList ids then
    .error (.config "Provide either 'cvid' or 'ids' to fetch records.")
  else if truthyOptStr cvid then fetchCV w fetchAll fuel 1 []
  else fetchIDs w 0 (chunks IDS_PER_REQUEST (ids.getD [])) []

/-! ### Helper lemmas -/

theorem isDigit_not_whitespace (c : Char) (h : c.isDigit = true) :
    c.isWhitespace = false := by
  simp only [Char.isDigit, decide_eq_true_eq, Bool.and_eq_true] at h
  obtain ⟨h1, h2⟩ := h
  simp only [Char.isWhitespace, Bool.or_eq_false_iff, decide_eq_false_iff_not]
  refine ⟨⟨⟨fun hc => ?_, fun hc => ?_⟩, fun hc => ?_⟩, fun hc => ?_⟩ <;>
    (subst hc; revert h1 h2; decide)

theorem dropWhile_ws_of_digits (l : List Char) (h : ∀ c ∈ l, c.isDigit = true) :
    l.dropWhile Char.isWhitespace = l := by
  cases l with
  | nil => rfl
  | cons a t =>
    have := isDigit_not_whitespace a (h a (List.mem_cons_self a t))
    simp [List.dropWhile, this]

theorem pyStrip_of_digits (s : String) (h : isDigitStr s = true) :
    pyStrip s = s := by
  obtain ⟨l⟩ := s
  simp only [isDigitStr, Bool.and_eq_true, List.all_eq_true] at h
  obtain ⟨-, hd⟩ := h
  have h1 : l.dropWhile Char.isWhitespace = l :=
    dropWhile_ws_of_digits l fun c hc => hd c hc
  have h2 : l.reverse.dropWhile Char.isWhitespace = l.reverse :=
    dropWhile_ws_of_digits l.reverse fun c hc => hd c (List.mem_reverse.mp hc)
  simp [pyStrip, h1, h2]

theorem chunksF_flatten (n : Nat) (hn : 0 < n) :
    ∀ (fuel : Nat) (l : List α), l.length ≤ fuel → (chunksF n fuel l).flatten = l := by
  intro fuel
  induction fuel with
  | zero =>
    intro l hl
    have : l = [] := List.eq_nil_of_length_eq_zero (Nat.le_zero.mp hl)
    subst this; rfl
  | succ fuel ih =>
    intro l hl
    cases l with
    | nil => rfl
    | cons x xs =>
      have hfuel : ((x :: xs).drop n).length ≤ fuel := by
        have := List.length_drop n (x :: xs)
        omega
      simp only [chunksF, List.flatten_cons]
      rw [ih ((x :: xs).drop n) hfuel, List.take_append_drop]

theorem chunksF_length (n : Nat) (hn : 0 < n) :
    ∀ (fuel : Nat) (l : List α), l.length ≤ fuel →
      (chunksF n fuel l).length = (l.length + n - 1) / n := by
  intro fuel
  induction fuel with
  | zero =>
    intro l hl
    have : l = [] := List.eq_nil_of_length_eq_zero (Nat.le_zero.mp hl)
    subst this
    simp [chunksF, Nat.div_eq_of_lt (show n - 1 < n by omega)]
  | succ fuel ih =>
    intro l hl
    cases l with
    | nil => simp [chunksF, Nat.div_eq_of_lt (show n - 1 < n by omega)]
    | cons x xs =>
      have hfuel : ((x :: xs).drop n).length ≤ fuel := by
        have := List.length_drop n (x :: xs)
        simp only [List.length_cons] at hl this ⊢
        omega
      simp only [chunksF, List.length_cons]
      rw [ih ((x :: xs).drop n) hfuel]
      have hd : ((x :: xs).drop n).length = xs.length + 1 - n := by
        have := List.length_drop n (x :: xs)
        simp only [List.length_cons] at this
        exact this
      rw [hd]
      have h1 : xs.length + 1 + n - 1 = xs.length + n := by omega
      rw [h1, Nat.add_div_right _ hn]
      rcases Nat.lt_or_ge n (xs.length + 1) with hlt | hle
      · have e1 : xs.length + 1 - n + n - 1 = xs.length := by omega
        rw [e1]
      · have e1 : xs.length + 1 - n = 0 := by omega
        rw [e1, Nat.div_eq_of_lt (show 0 + n - 1 < n by omega),
          Nat.div_eq_of_lt (show xs.length < n by omega)]

theorem chunks_flatten (n : Nat) (hn : 0 < n) (l : List α) :
    (chunks n l).flatten = l :=
  chunksF_flatten n hn l.length l (Nat.le_refl _)

theorem chunks_length (n : Nat) (hn : 0 < n) (l : List α) :
    (chunks n l).length = (l.length + n - 1) / n :=
  chunksF_length n hn l.length l (Nat.le_refl _)

theorem chunksF_ne_nil (n : Nat) (hn : 0 < n) :
    ∀ (fuel : Nat) (l : List α), l.length ≤ fuel →
      ∀ c ∈ chunksF n fuel l, c ≠ [] := by
  intro fuel
  induction fuel with
  | zero => intro l _ c hc; simp [chunksF] at hc
  | succ fuel ih =>
    intro l hl c hc
    cases l with
    | nil => simp [chunksF] at hc
    | cons x xs =>
      simp only [chunksF, List.mem_cons] at hc
      rcases hc with rfl | hc
      · intro h
        have := congrArg List.length h
        simp only [List.length_take, List.length_cons, List.length_nil] at this
        omega
      · exact ih ((x :: xs).drop n)
          (by have := List.length_drop n (x :: xs); omega) c hc

theorem chunks_ne_nil (n : Nat) (hn : 0 < n) (l : List α) :
    ∀ c ∈ chunks n l, c ≠ [] :=
  chunksF_ne_nil n hn l.length l (Nat.le_refl _)

/-! ### Notions used by the claim statements -/

/-- The string form of a row's id (the code's `str(r["id"])`, with the
`r.get("id", "")` default). -/
def rowId (r : Row) : String := r.id.getD ""

/-- A well-formed update request item in the sense of the spec: numeric id
string, non-empty status drawn from the enumerated valid set. -/
def rowOK (r : Row) : Bool :=
  isDigitStr (rowId r) &&
  (match r.status with
   | some s => VALID_STATUSES.contains s
   | none => false)

/-- `i` appears in outcome record `o`, as the top-level id or the nested
details id, under the string-normalised (`str(...).strip()`) comparison the
code uses. -/
def idAppears (i : String) (o : Item) : Bool :=
  (match o.id with
   | some s => pyStrip s == pyStrip i
   | none => false) ||
  (match o.detailsId with
   | some s => pyStrip s == pyStrip i
   | none => false)

/-- `i` counts as present in the raw response `items` in the claim's sense:
it appears as some item's top-level id or nested details id. -/
def claimPresent (i : String) (items : List Item) : Bool :=
  items.any (idAppears i)

/-! ### Lemmas about rows and payloads -/

theorem valid_statuses_ne_empty : ∀ s ∈ VALID_STATUSES, s ≠ "" := by decide

theorem rowOK_wellFormed (r : Row) (h : rowOK r = true) :
    rowWellFormed r = true := by
  unfold rowOK at h
  unfold rowWellFormed truthyStatus
  rcases r with ⟨i, st⟩
  cases st with
  | none => simp at h
  | some s =>
    simp only [Bool.and_eq_true] at h ⊢
    refine ⟨h.1, ?_⟩
    have hmem : s ∈ VALID_STATUSES := by
      have := h.2
      simpa using this
    have := valid_statuses_ne_empty s hmem
    simpa using this

theorem rowOK_not_bad (r : Row) (h : rowOK r = true) : rowBad r = false := by
  unfold rowOK at h
  unfold rowBad
  rcases r with ⟨i, st⟩
  cases st with
  | none => rfl
  | some s =>
    simp only [Bool.and_eq_true] at h
    have hmem : s ∈ VALID_STATUSES := by
      have := h.2
      simpa using this
    simp only [Option.getD_some, Bool.and_eq_false_iff]
    right
    simpa using hmem

theorem badList_nil_of_rowOK (rows : List Row) (h : ∀ r ∈ rows, rowOK r = true) :
    badList rows = [] := by
  unfold badList
  have : rows.filter rowBad = [] := by
    rw [List.filter_eq_nil_iff]
    intro r hr
    simp [rowOK_not_bad r (h r hr)]
  rw [this]
  rfl

theorem rowOK_id_some (r : Row) (h : rowOK r = true) :
    r.id = some (rowId r) ∧ isDigitStr (rowId r) = true := by
  unfold rowOK at h
  simp only [Bool.and_eq_true] at h
  rcases r with ⟨i, st⟩
  cases i with
  | none =>
    exfalso
    have := h.1
    simp [rowId, isDigitStr] at this
  | some s => exact ⟨rfl, h.1⟩

theorem mkPayload_of_wf (c : List Row) (h : ∀ r ∈ c, rowWellFormed r = true) :
    mkPayload c = c.map fun r => ⟨rowId r, r.status.getD ""⟩ := by
  induction c with
  | nil => rfl
  | cons r rs ih =>
    have hr := h r (List.mem_cons_self r rs)
    simp only [mkPayload, List.filterMap_cons, hr, if_pos, List.map_cons]
    rw [← ih fun x hx => h x (List.mem_cons_of_mem r hx)]
    rfl

/-! ### Counting lemmas for reconciliation completeness -/

theorem present_length_le (ids : List String) (items : List Item)
    (hnd : ids.Nodup) (hdig : ∀ i ∈ ids, isDigitStr i = true) :
    (ids.filter fun i => (gotOf items).contains (pyStrip i)).length ≤
      items.length := by
  have hPnd : (ids.filter fun i => (gotOf items).contains (pyStrip i)).Nodup :=
    hnd.filter _
  have hsub : (ids.filter fun i => (gotOf items).contains (pyStrip i)) ⊆
      gotOf items := by
    intro i hi
    have hm := List.mem_filter.mp hi
    have h2 : pyStrip i ∈ gotOf items := by simpa using hm.2
    rwa [pyStrip_of_digits i (hdig i hm.1)] at h2
  have := (List.subperm_of_subset hPnd hsub).length_le
  simpa [gotOf] using this

theorem ids_le_items_add_missing (ids : List String) (items : List Item)
    (hnd : ids.Nodup) (hdig : ∀ i ∈ ids, isDigitStr i = true) :
    ids.length ≤ items.length + (missingOf ids items).length := by
  have hsplit : ids.length =
      (ids.filter fun i => (gotOf items).contains (pyStrip i)).length +
      (ids.filter fun i => !((gotOf items).contains (pyStrip i))).length :=
    List.length_eq_length_filter_add _
  have hp := present_length_le ids items hnd hdig
  unfold missingOf
  omega

theorem probeItems_filter_map (probe : String → ReqResult) (l : List String)
    (i : String) :
    ((l.map (mkProbeItem probe)).filter fun o => decide (o.id = some i)) =
      (l.filter fun m => decide (m = i)).map (mkProbeItem probe) := by
  induction l with
  | nil => rfl
  | cons m ms ih =>
    simp only [List.map_cons, List.filter_cons]
    by_cases h : m = i
    · subst h
      simp [mkProbeItem, ih]
    · simp [mkProbeItem, h, ih]

theorem filter_eq_single (l : List String) (i : String) (hnd : l.Nodup)
    (hm : i ∈ l) : (l.filter fun m => decide (m = i)).length = 1 := by
  have hfun : (fun m => decide (m = i)) = (fun m : String => m == i) := by
    funext m
    by_cases h : m = i <;> simp [h]
  rw [hfun]
  have := List.count_eq_one_of_mem hnd hm
  simpa [List.count, List.countP_eq_length_filter] using this

theorem probeItems_count_one (probe : String → ReqResult) (ids : List String)
    (items : List Item) (hnd : ids.Nodup) (i : String) (hi : i ∈ ids)
    (hmiss : (gotOf items).contains (pyStrip i) = false) :
    ((probeItems probe ids items).filter fun o => decide (o.id = some i)).length
      = 1 := by
  unfold probeItems
  rw [probeItems_filter_map, List.length_map]
  refine filter_eq_single _ i (hnd.filter _) (List.mem_filter.mpr ⟨hi, ?_⟩)
  show (!((gotOf items).contains (pyStrip i))) = true
  rw [hmiss]
  rfl

theorem idAppears_of_respKey (i : String) (it : Item)
    (hdig : isDigitStr i = true) (hkey : respKey it = pyStrip i) :
    idAppears i it = true := by
  unfold respKey at hkey
  unfold idAppears
  cases hd : it.detailsId with
  | some d =>
    rw [hd] at hkey
    simp only [Option.getD_some] at hkey
    simp [hd, hkey]
  | none =>
    rw [hd] at hkey
    simp only [Option.getD_none] at hkey
    cases hid : it.id with
    | some s =>
      rw [hid] at hkey
      simp only [Option.getD_some] at hkey
      simp [hid, hd, hkey]
    | none =>
      rw [hid] at hkey
      simp only [Option.getD_none] at hkey
      rw [pyStrip_of_digits i hdig] at hkey
      have hu : pyStrip "UNKNOWN_ID_IN_RESPONSE" = "UNKNOWN_ID_IN_RESPONSE" := by
        decide
      rw [hu] at hkey
      subst hkey
      exact absurd hdig (by decide)

theorem not_got_of_not_claimPresent (i : String) (items : List Item)
    (hdig : isDigitStr i = true) (h : claimPresent i items = false) :
    (gotOf items).contains (pyStrip i) = false := by
  by_contra hc
  have hc' : (gotOf items).contains (pyStrip i) = true := by
    cases hcc : (gotOf items).contains (pyStrip i) <;> simp_all
  have hmem : pyStrip i ∈ gotOf items := by simpa using hc'
  obtain ⟨it, hit, hkey⟩ := List.mem_map.mp hmem
  have happ := idAppears_of_respKey i it hdig hkey
  have hany : items.any (idAppears i) = true := List.any_eq_true.mpr ⟨it, hit, happ⟩
  unfold claimPresent at h
  rw [h] at hany
  exact Bool.false_ne_true hany

/-- `i` itself appears in the probe record built for `i`. -/
theorem idAppears_mkProbeItem (probe : String → ReqResult) (i : String) :
    idAppears i (mkProbeItem probe i) = true := by
  simp [idAppears, mkProbeItem]

/-! ### Per-chunk completeness -/

theorem processChunk_complete (w : BulkWorld) (idx : Nat) (c : List Row)
    (hok : ∀ r ∈ c, rowOK r = true) (hnd : (c.map rowId).Nodup) :
    c.length ≤ (processChunk w idx c).out.length ∧
    ∀ r ∈ c, ∃ o ∈ (processChunk w idx c).out, idAppears (rowId r) o = true := by
  by_cases hc : c = []
  · subst hc
    simp [processChunk, mkPayload]
  · have hwf : ∀ r ∈ c, rowWellFormed r = true :=
      fun r hr => rowOK_wellFormed r (hok r hr)
    have hpay : mkPayload c = c.map fun r => ⟨rowId r, r.status.getD ""⟩ :=
      mkPayload_of_wf c hwf
    have hids : (mkPayload c).map (fun p => p.id) = c.map rowId := by
      rw [hpay, List.map_map]
      rfl
    have hpne : (mkPayload c).isEmpty = false := by
      rw [hpay]
      cases c with
      | nil => exact absurd rfl hc
      | cons x xs => rfl
    have hdig : ∀ i ∈ c.map rowId, isDigitStr i = true := by
      intro i hi
      obtain ⟨r, hr, rfl⟩ := List.mem_map.mp hi
      exact (rowOK_id_some r (hok r hr)).2
    have happid : ∀ r ∈ c, ∀ s : Option Nat,
        idAppears (rowId r) (chunkFailHTTPItem s r) = true := by
      intro r hr s
      have := (rowOK_id_some r (hok r hr)).1
      simp [idAppears, chunkFailHTTPItem, this]
    have happid2 : ∀ r ∈ c, ∀ m : String,
        idAppears (rowId r) (chunkFailUnknownItem m r) = true := by
      intro r hr m
      have := (rowOK_id_some r (hok r hr)).1
      simp [idAppears, chunkFailUnknownItem, this]
    cases hm : w.mutR idx with
    | raisedHTTP s =>
      constructor
      · simp [processChunk, hpne, update_chunk, hm]
      · intro r hr
        refine ⟨chunkFailHTTPItem (s.map (·.status)) r, ?_, happid r hr _⟩
        simp only [processChunk, hpne, update_chunk, hm]
        simpa using List.mem_map_of_mem (chunkFailHTTPItem (s.map (·.status))) hr
    | raisedExc msg =>
      constructor
      · simp [processChunk, hpne, update_chunk, hm]
      · intro r hr
        refine ⟨chunkFailUnknownItem msg r, ?_, happid2 r hr _⟩
        simp only [processChunk, hpne, update_chunk, hm]
        simpa using List.mem_map_of_mem (chunkFailUnknownItem msg) hr
    | success res =>
      obtain ⟨st, body⟩ := res
      by_cases hst : st = 204
      · subst hst
        constructor
        · simp [processChunk, hpne, update_chunk, hm, hids]
        · intro r hr
          refine ⟨noContentItem (rowId r), ?_, by simp [idAppears, noContentItem]⟩
          simp only [processChunk, hpne, update_chunk, hm]
          simp only [beq_self_eq_true, if_pos]
          rw [hids]
          exact List.mem_map_of_mem noContentItem (List.mem_map_of_mem rowId hr)
      · have hst' : ((204 : Nat) == 204) = true := by decide
        have hbeq : (st == 204) = false := beq_eq_false_iff_ne.mpr hst
        cases body with
        | invalid raw =>
          constructor
          · simp [processChunk, hpne, update_chunk, hm, hbeq]
          · intro r hr
            refine ⟨chunkFailHTTPItem (some st) r, ?_, happid r hr _⟩
            simp only [processChunk, hpne, update_chunk, hm, hbeq]
            simpa using List.mem_map_of_mem (chunkFailHTTPItem (some st)) hr
        | json items infoMore =>
          have hout : (processChunk w idx c).out =
              items ++ probeItems (w.probe idx) (c.map rowId) items := by
            simp [processChunk, hpne, update_chunk, hm, hbeq, hids]
          constructor
          · rw [hout, List.length_append]
            have := ids_le_items_add_missing (c.map rowId) items hnd hdig
            have hlen : (probeItems (w.probe idx) (c.map rowId) items).length =
                (missingOf (c.map rowId) items).length := List.length_map _ _
            have hcl : (c.map rowId).length = c.length := List.length_map _ _
            omega
          · intro r hr
            rw [hout]
            cases hcon : (gotOf items).contains (pyStrip (rowId r)) with
            | false =>
              refine ⟨mkProbeItem (w.probe idx) (rowId r),
                List.mem_append_right items ?_, idAppears_mkProbeItem _ _⟩
              unfold probeItems
              apply List.mem_map_of_mem
              refine List.mem_filter.mpr ⟨List.mem_map_of_mem rowId hr, ?_⟩
              show (!((gotOf items).contains (pyStrip (rowId r)))) = true
              rw [hcon]
              rfl
            | true =>
              have hmem : pyStrip (rowId r) ∈ gotOf items := by simpa using hcon
              obtain ⟨it, hit, hkey⟩ := List.mem_map.mp hmem
              exact ⟨it, List.mem_append_left _ hit,
                idAppears_of_respKey _ it (hdig _ (List.mem_map_of_mem rowId hr)) hkey⟩

theorem CHUNK_SIZE_pos : 0 < CHUNK_SIZE := by decide

theorem bulkGo_cons (w : BulkWorld) (idx : Nat) (c : List Row)
    (cs : List (List Row)) :
    bulkGo w idx (c :: cs) =
      ⟨(processChunk w idx c).out ++ (bulkGo w (idx + 1) cs).out,
       (processChunk w idx c).progress ++ (bulkGo w (idx + 1) cs).progress,
       (processChunk w idx c).puts ++ (bulkGo w (idx + 1) cs).puts⟩ := rfl

theorem bulkGo_complete (w : BulkWorld) :
    ∀ (cs : List (List Row)) (idx : Nat),
      (∀ c ∈ cs, (∀ r ∈ c, rowOK r = true) ∧ (c.map rowId).Nodup) →
      cs.flatten.length ≤ (bulkGo w idx cs).out.length ∧
      ∀ c ∈ cs, ∀ r ∈ c, ∃ o ∈ (bulkGo w idx cs).out,
        idAppears (rowId r) o = true := by
  intro cs
  induction cs with
  | nil => intro idx _; simp [bulkGo]
  | cons c cs ih =>
    intro idx h
    have hc := h c (List.mem_cons_self c cs)
    have h1 := processChunk_complete w idx c hc.1 hc.2
    have h2 := ih (idx + 1) fun c' hc' => h c' (List.mem_cons_of_mem c hc')
    constructor
    · rw [bulkGo_cons]
      simp only [List.flatten_cons, List.length_append]
      have := h1.1
      have := h2.1
      omega
    · intro c' hc' r hr
      rcases List.mem_cons.mp hc' with rfl | hc'
      · obtain ⟨o, ho, happ⟩ := h1.2 r hr
        exact ⟨o, by rw [bulkGo_cons]; exact List.mem_append_left _ ho, happ⟩
      · obtain ⟨o, ho, happ⟩ := h2.2 c' hc' r hr
        exact ⟨o, by rw [bulkGo_cons]; exact List.mem_append_right _ ho, happ⟩

theorem chunk_hyps (rows : List Row) (hok : ∀ r ∈ rows, rowOK r = true)
    (hnd : (rows.map rowId).Nodup) :
    ∀ c ∈ chunks CHUNK_SIZE rows,
      (∀ r ∈ c, rowOK r = true) ∧ (c.map rowId).Nodup := by
  intro c hcm
  have hsubl : c.Sublist rows := by
    have := List.sublist_flatten_of_mem hcm
    rwa [chunks_flatten CHUNK_SIZE CHUNK_SIZE_pos rows] at this
  exact ⟨fun r hr => hok r (hsubl.subset hr), hnd.sublist (hsubl.map rowId)⟩

/-! ### Claim C1 -/

/-- C1 (amended: the submitted ids must additionally be pairwise distinct):
for every input list of K well-formed update request items (numeric id
string, non-empty valid status) with pairwise-distinct ids, `bulk_update`
returns at least K outcome records, every submitted id appears in at least
one outcome record (as top-level id or nested details id, under the code's
string-normalised comparison), even when the mutation response omits
submitted ids; and reconciliation appends exactly one probe-derived outcome
record for every submitted id that appears nowhere in the response. -/
theorem C1_no_silent_drops (w : BulkWorld) (rows : List Row)
    (hok : ∀ r ∈ rows, rowOK r = true) (hnd : (rows.map rowId).Nodup) :
    ∃ res : ChunkEffect, bulk_update w rows = .ok res ∧
      rows.length ≤ res.out.length ∧
      (∀ r ∈ rows, ∃ o ∈ res.out, idAppears (rowId r) o = true) ∧
      (∀ (probe : String → ReqResult) (ids : List String) (items : List Item),
        ids.Nodup → ∀ i ∈ ids, isDigitStr i = true →
          claimPresent i items = false →
          ((probeItems probe ids items).filter
            fun o => decide (o.id = some i)).length = 1) := by
  have hbad := badList_nil_of_rowOK rows hok
  have hup : bulk_update w rows = .ok (bulkGo w 1 (chunks CHUNK_SIZE rows)) := by
    simp [bulk_update, hbad]
  have hcomp := bulkGo_complete w (chunks CHUNK_SIZE rows) 1
    (chunk_hyps rows hok hnd)
  refine ⟨_, hup, ?_, ?_, ?_⟩
  · have := hcomp.1
    rwa [chunks_flatten CHUNK_SIZE CHUNK_SIZE_pos rows] at this
  · intro r hr
    have hr' : r ∈ (chunks CHUNK_SIZE rows).flatten := by
      rw [chunks_flatten CHUNK_SIZE CHUNK_SIZE_pos rows]
      exact hr
    obtain ⟨c, hcm, hrc⟩ := List.mem_flatten.mp hr'
    exact hcomp.2 c hcm r hrc
  · intro probe ids items hnd' i hi hdig hnp
    exact probeItems_count_one probe ids items hnd' i hi
      (not_got_of_not_claimPresent i items hdig hnp)

/-- C1 counterexample: three well-formed items whose ids are "5", "5", "7"
(duplicate id "5"); the mutation response contains one item with id "5" and
omits "7"; the probe for "7" finds the record.  `bulk_update` returns only 2
outcome records for K = 3 submitted items, so the claim's "at least K
Outcome Records" fails as stated. -/
theorem C1_counterexample :
    bulk_update
      ⟨fun _ => .success ⟨200,
          .json [⟨some "5", none, some "success", none, none⟩] none⟩,
        fun _ _ => .success ⟨200, .json [] none⟩⟩
      [⟨some "5", some "Not Contacted"⟩, ⟨some "5", some "Not Contacted"⟩,
       ⟨some "7", some "Not Contacted"⟩] =
      .ok ⟨[⟨some "5", none, some "success", none, none⟩,
            ⟨some "7", none, some "error",
             some "POSSIBLY_UPDATED_BUT_MISSING_IN_RESPONSE",
             some "Record found, may have updated but wasn't in bulk response."⟩],
           [1],
           [(1, [⟨"5", "Not Contacted"⟩, ⟨"5", "Not Contacted"⟩,
                 ⟨"7", "Not Contacted"⟩])]⟩ ∧
    (∀ r ∈ [(⟨some "5", some "Not Contacted"⟩ : Row),
            ⟨some "5", some "Not Contacted"⟩,
            ⟨some "7", some "Not Contacted"⟩], rowOK r = true) ∧
    ¬(3 ≤ (2 : Nat)) := by
  refine ⟨by rfl, by decide, by decide⟩

/-- C1 witness: the amended theorem applied to one well-formed row whose id
the mocked response omits. -/
theorem C1_witness :
    ((∀ r ∈ [(⟨some "3", some "On Hold"⟩ : Row)], rowOK r = true) ∧
      (([(⟨some "3", some "On Hold"⟩ : Row)].map rowId).Nodup)) ∧
    (∃ res : ChunkEffect,
      bulk_update ⟨fun _ => .success ⟨200, .json [] none⟩,
        fun _ _ => .success ⟨204, .json [] none⟩⟩
        [⟨some "3", some "On Hold"⟩] = .ok res ∧
      ([(⟨some "3", some "On Hold"⟩ : Row)]).length ≤ res.out.length ∧
      (∀ r ∈ [(⟨some "3", some "On Hold"⟩ : Row)],
        ∃ o ∈ res.out, idAppears (rowId r) o = true) ∧
      (∀ (probe : String → ReqResult) (ids : List String) (items : List Item),
        ids.Nodup → ∀ i ∈ ids, isDigitStr i = true →
          claimPresent i items = false →
          ((probeItems probe ids items).filter
            fun o => decide (o.id = some i)).length = 1)) :=
  ⟨⟨by decide, by decide⟩,
    C1_no_silent_drops
      ⟨fun _ => .success ⟨200, .json [] none⟩,
        fun _ _ => .success ⟨204, .json [] none⟩⟩
      [⟨some "3", some "On Hold"⟩] (by decide) (by decide)⟩

/-! ### Claim C2 -/

theorem processChunk_httpFail (w : BulkWorld) (idx : Nat) (c : List Row)
    (ropt : Option Response) (hp : (mkPayload c).isEmpty = false)
    (hm : w.mutR idx = .raisedHTTP ropt) :
    processChunk w idx c =
      ⟨c.map (chunkFailHTTPItem (ropt.map (·.status))), [idx],
       [(idx, mkPayload c)]⟩ := by
  simp [processChunk, hp, update_chunk, hm]

theorem processChunk_excFail (w : BulkWorld) (idx : Nat) (c : List Row)
    (msg : String) (hp : (mkPayload c).isEmpty = false)
    (hm : w.mutR idx = .raisedExc msg) :
    processChunk w idx c =
      ⟨c.map (chunkFailUnknownItem msg), [idx], [(idx, mkPayload c)]⟩ := by
  simp [processChunk, hp, update_chunk, hm]

theorem processChunk_progress (w : BulkWorld) (idx : Nat) (c : List Row)
    (hp : (mkPayload c).isEmpty = false) :
    (processChunk w idx c).progress = [idx] := by
  cases hu : update_chunk (mkPayload c) (w.mutR idx) (w.probe idx) with
  | ok items => simp [processChunk, hp, hu]
  | error e => cases e <;> simp [processChunk, hp, hu]

theorem bulkGo_get (w : BulkWorld) :
    ∀ (cs : List (List Row)) (idx k : Nat) (c : List Row),
      cs.get? k = some c →
      (∀ o ∈ (processChunk w (idx + k) c).out, o ∈ (bulkGo w idx cs).out) ∧
      (∀ p ∈ (processChunk w (idx + k) c).progress,
        p ∈ (bulkGo w idx cs).progress) := by
  intro cs
  induction cs with
  | nil => intro idx k c h; simp at h
  | cons c0 cs ih =>
    intro idx k c h
    cases k with
    | zero =>
      simp only [List.get?_cons_zero, Option.some.injEq] at h
      subst h
      rw [Nat.add_zero]
      constructor
      · intro o ho
        rw [bulkGo_cons]
        exact List.mem_append_left _ ho
      · intro p hp
        rw [bulkGo_cons]
        exact List.mem_append_left _ hp
    | succ k =>
      simp only [List.get?_cons_succ] at h
      have := ih (idx + 1) k c h
      have harith : idx + 1 + k = idx + (k + 1) := by omega
      rw [harith] at this
      constructor
      · intro o ho
        rw [bulkGo_cons]
        exact List.mem_append_right _ (this.1 o ho)
      · intro p hp
        rw [bulkGo_cons]
        exact List.mem_append_right _ (this.2 p hp)

theorem chunkFailHTTPCode_ne_unknown (s : Option Nat) :
    chunkFailHTTPCode s ≠ "CHUNK_FAILED_UNKNOWN" := by
  cases s with
  | none => decide
  | some v =>
    unfold chunkFailHTTPCode
    intro h
    have hdata : "CHUNK_FAILED_HTTP_".data ++ (toString v).data =
        "CHUNK_FAILED_UNKNOWN".data := congrArg String.data h
    have htake : ("CHUNK_FAILED_HTTP_".data ++ (toString v).data).take 18 =
        "CHUNK_FAILED_UNKNOWN".data.take 18 :=
      congrArg (fun l => l.take 18) hdata
    rw [List.take_left'
      (show ("CHUNK_FAILED_HTTP_".data).length = 18 by decide)] at htake
    exact absurd htake (by decide)

/-- C2: if the mutation request for the chunk at 0-based position k (1-based
index k+1) raises a transport-level HTTP error or any other exception, every
row of that chunk is recorded as an error outcome record whose code
distinguishes HTTP failure (`CHUNK_FAILED_HTTP_...`) from unexpected failure
(`CHUNK_FAILED_UNKNOWN`), every chunk still contributes its own outcome
records to the result, the progress callback fires with the 1-based index
k+1 of the failed chunk, and `bulk_update` returns normally instead of
propagating the exception. -/
theorem C2_chunk_failure_isolation (w : BulkWorld) (rows : List Row)
    (hval : badList rows = []) (k : Nat) (c : List Row)
    (hk : (chunks CHUNK_SIZE rows).get? k = some c)
    (hp : (mkPayload c).isEmpty = false) :
    ∃ res : ChunkEffect, bulk_update w rows = .ok res ∧
      (∀ ropt, w.mutR (k + 1) = .raisedHTTP ropt →
        (processChunk w (k + 1) c).out =
          c.map (chunkFailHTTPItem (ropt.map (·.status))) ∧
        ∀ r ∈ c, chunkFailHTTPItem (ropt.map (·.status)) r ∈ res.out) ∧
      (∀ msg, w.mutR (k + 1) = .raisedExc msg →
        (processChunk w (k + 1) c).out = c.map (chunkFailUnknownItem msg) ∧
        ∀ r ∈ c, chunkFailUnknownItem msg r ∈ res.out) ∧
      (∀ ropt r, (chunkFailHTTPItem ropt r).status = some "error" ∧
        (chunkFailUnknownItem "" r).status = some "error" ∧
        chunkFailHTTPCode ropt ≠ "CHUNK_FAILED_UNKNOWN") ∧
      (k + 1) ∈ res.progress ∧
      (∀ j cj, (chunks CHUNK_SIZE rows).get? j = some cj →
        ∀ o ∈ (processChunk w (j + 1) cj).out, o ∈ res.out) := by
  have hup : bulk_update w rows = .ok (bulkGo w 1 (chunks CHUNK_SIZE rows)) := by
    simp [bulk_update, hval]
  have hget := bulkGo_get w (chunks CHUNK_SIZE rows) 1 k c hk
  have harith : 1 + k = k + 1 := by omega
  rw [harith] at hget
  refine ⟨_, hup, ?_, ?_, ?_, ?_, ?_⟩
  · intro ropt hm
    have he := processChunk_httpFail w (k + 1) c ropt hp hm
    refine ⟨by rw [he], fun r hr => ?_⟩
    apply hget.1
    rw [he]
    exact List.mem_map_of_mem _ hr
  · intro msg hm
    have he := processChunk_excFail w (k + 1) c msg hp hm
    refine ⟨by rw [he], fun r hr => ?_⟩
    apply hget.1
    rw [he]
    exact List.mem_map_of_mem _ hr
  · intro ropt r
    exact ⟨rfl, rfl, chunkFailHTTPCode_ne_unknown ropt⟩
  · apply hget.2
    rw [processChunk_progress w (k + 1) c hp]
    exact List.mem_singleton_self _
  · intro j cj hj o ho
    have hgetj := bulkGo_get w (chunks CHUNK_SIZE rows) 1 j cj hj
    have harithj : 1 + j = j + 1 := by omega
    rw [harithj] at hgetj
    exact hgetj.1 o ho

/-- C2 witness: two chunks' worth of rows is impossible below the chunk size,
so a single-chunk instance whose PUT raises an HTTP 500 error after retries;
the theorem applied at this concrete input. -/
theorem C2_witness :
    (badList [(⟨some "8", some "On Hold"⟩ : Row)] = [] ∧
      (chunks CHUNK_SIZE [(⟨some "8", some "On Hold"⟩ : Row)]).get? 0 =
        some [⟨some "8", some "On Hold"⟩] ∧
      (mkPayload [(⟨some "8", some "On Hold"⟩ : Row)]).isEmpty = false) ∧
    (∃ res : ChunkEffect,
      bulk_update
        ⟨fun _ => .raisedHTTP (some ⟨500, .invalid "err"⟩),
         fun _ _ => .success ⟨200, .json [] none⟩⟩
        [⟨some "8", some "On Hold"⟩] = .ok res ∧
      (∀ ropt, (⟨fun _ => .raisedHTTP (some ⟨500, .invalid "err"⟩),
          fun _ _ => .success ⟨200, .json [] none⟩⟩ : BulkWorld).mutR (0 + 1) =
            .raisedHTTP ropt →
        (processChunk ⟨fun _ => .raisedHTTP (some ⟨500, .invalid "err"⟩),
          fun _ _ => .success ⟨200, .json [] none⟩⟩ (0 + 1)
          [⟨some "8", some "On Hold"⟩]).out =
          [(⟨some "8", some "On Hold"⟩ : Row)].map
            (chunkFailHTTPItem (ropt.map (·.status))) ∧
        ∀ r ∈ [(⟨some "8", some "On Hold"⟩ : Row)],
          chunkFailHTTPItem (ropt.map (·.status)) r ∈ res.out) ∧
      (∀ msg, (⟨fun _ => .raisedHTTP (some ⟨500, .invalid "err"⟩),
          fun _ _ => .success ⟨200, .json [] none⟩⟩ : BulkWorld).mutR (0 + 1) =
            .raisedExc msg →
        (processChunk ⟨fun _ => .raisedHTTP (some ⟨500, .invalid "err"⟩),
          fun _ _ => .success ⟨200, .json [] none⟩⟩ (0 + 1)
          [⟨some "8", some "On Hold"⟩]).out =
          [(⟨some "8", some "On Hold"⟩ : Row)].map (chunkFailUnknownItem msg) ∧
        ∀ r ∈ [(⟨some "8", some "On Hold"⟩ : Row)],
          chunkFailUnknownItem msg r ∈ res.out) ∧
      (∀ ropt r, (chunkFailHTTPItem ropt r).status = some "error" ∧
        (chunkFailUnknownItem "" r).status = some "error" ∧
        chunkFailHTTPCode ropt ≠ "CHUNK_FAILED_UNKNOWN") ∧
      (0 + 1) ∈ res.progress ∧
      (∀ j cj, (chunks CHUNK_SIZE
          [(⟨some "8", some "On Hold"⟩ : Row)]).get? j = some cj →
        ∀ o ∈ (processChunk ⟨fun _ => .raisedHTTP (some ⟨500, .invalid "err"⟩),
          fun _ _ => .success ⟨200, .json [] none⟩⟩ (j + 1) cj).out,
          o ∈ res.out)) :=
  ⟨⟨by decide, by decide, by decide⟩,
    C2_chunk_failure_isolation
      ⟨fun _ => .raisedHTTP (some ⟨500, .invalid "err"⟩),
       fun _ _ => .success ⟨200, .json [] none⟩⟩
      [⟨some "8", some "On Hold"⟩] (by decide) 0 [⟨some "8", some "On Hold"⟩]
      (by decide) (by decide)⟩

/-! ### Claim C3 -/

/-- C3 (amended: only a present, non-empty invalid target value trips the
gate — the code's comprehension skips falsy statuses): if some row's status
is present, non-empty and outside `VALID_STATUSES`, then `bulk_update` fails
with the validation error for every transport world (so before any network
activity, producing no outcome records), and the error's value list names
exactly the present, non-empty, invalid status values of the input. -/
theorem C3_validation_gate (rows : List Row) (s0 : String) (r0 : Row)
    (hr0 : r0 ∈ rows) (hs0 : r0.status = some s0) (hne : s0 ≠ "")
    (hval : s0 ∉ VALID_STATUSES) :
    (∀ w : BulkWorld,
      bulk_update w rows = .error (.validation (badList rows))) ∧
    (∀ s, s ∈ badList rows ↔
      ∃ r ∈ rows, r.status = some s ∧ s ≠ "" ∧ s ∉ VALID_STATUSES) := by
  have hbadmem : ∀ s, s ∈ badList rows ↔
      ∃ r ∈ rows, r.status = some s ∧ s ≠ "" ∧ s ∉ VALID_STATUSES := by
    intro s
    unfold badList
    rw [List.mem_dedup, List.mem_map]
    constructor
    · rintro ⟨r, hrf, hgd⟩
      have hm := List.mem_filter.mp hrf
      have hbadr := hm.2
      unfold rowBad truthyStatus at hbadr
      cases hst : r.status with
      | none => rw [hst] at hbadr; simp at hbadr
      | some t =>
        rw [hst] at hbadr
        simp only [Bool.and_eq_true, Bool.not_eq_true', beq_eq_false_iff_ne,
          ne_eq, Option.getD_some] at hbadr
        rw [hst, Option.getD_some] at hgd
        subst hgd
        refine ⟨r, hm.1, hst, hbadr.1, ?_⟩
        simpa using hbadr.2
    · rintro ⟨r, hrm, hst, hsne, hsval⟩
      refine ⟨r, List.mem_filter.mpr ⟨hrm, ?_⟩, by rw [hst, Option.getD_some]⟩
      unfold rowBad truthyStatus
      rw [hst]
      simp only [Bool.and_eq_true, Bool.not_eq_true', beq_eq_false_iff_ne,
        ne_eq, Option.getD_some]
      refine ⟨hsne, ?_⟩
      simpa using hsval
  have hmem : s0 ∈ badList rows := (hbadmem s0).mpr ⟨r0, hr0, hs0, hne, hval⟩
  have hnn : badList rows ≠ [] := List.ne_nil_of_mem hmem
  have hie : (badList rows).isEmpty = false := by
    cases hb : badList rows with
    | nil => exact absurd hb hnn
    | cons a l => rfl
  exact ⟨fun w => by simp [bulk_update, hie], hbadmem⟩

/-- C3 counterexample: the row `{"id": "1", "status": ""}` has a target value
(the empty string) outside the enumerated valid set, yet `bulk_update` does
not raise: for every world it proceeds past validation and returns normally
(the row is then filtered out of the only chunk's payload, which is skipped),
refuting the claim that any out-of-set target value aborts the call. -/
theorem C3_counterexample :
    ("" ∉ VALID_STATUSES) ∧
    ∀ w : BulkWorld,
      bulk_update w [⟨some "1", some ""⟩] = .ok ⟨[], [], []⟩ := by
  exact ⟨by decide, fun w => rfl⟩

/-- C3 witness: the amended theorem applied to a one-row list whose status
"Bogus" is non-empty and invalid. -/
theorem C3_witness :
    ((⟨some "1", some "Bogus"⟩ : Row) ∈ [(⟨some "1", some "Bogus"⟩ : Row)] ∧
      (⟨some "1", some "Bogus"⟩ : Row).status = some "Bogus" ∧
      "Bogus" ≠ "" ∧ "Bogus" ∉ VALID_STATUSES) ∧
    ((∀ w : BulkWorld,
      bulk_update w [⟨some "1", some "Bogus"⟩] =
        .error (.validation (badList [⟨some "1", some "Bogus"⟩]))) ∧
    (∀ s, s ∈ badList [(⟨some "1", some "Bogus"⟩ : Row)] ↔
      ∃ r ∈ [(⟨some "1", some "Bogus"⟩ : Row)],
        r.status = some s ∧ s ≠ "" ∧ s ∉ VALID_STATUSES)) :=
  ⟨⟨List.mem_singleton_self _, rfl, by decide, by decide⟩,
    C3_validation_gate [⟨some "1", some "Bogus"⟩] "Bogus"
      ⟨some "1", some "Bogus"⟩ (List.mem_singleton_self _) rfl
      (by decide) (by decide)⟩

/-! ### Claims C4 and C6 -/

/-- C4 counterexample: a request whose every attempt returns status 400 (a
non-success status outside the transient set) is not raised immediately on
the first attempt: `raise_for_status`'s `HTTPError` is caught by the
`except RequestException` clause, so the loop makes all 3 attempts with
backoff sleeps 2 and 4 before re-raising on the last attempt. -/
theorem C4_counterexample :
    request (fun _ => .resp ⟨400, .invalid "Bad Request"⟩) =
      ⟨.raisedHTTP (some ⟨400, .invalid "Bad Request"⟩), 3, [2, 4]⟩ ∧
    ¬((request (fun _ => .resp ⟨400, .invalid "Bad Request"⟩)).attempts = 1 ∧
      (request (fun _ => .resp ⟨400, .invalid "Bad Request"⟩)).sleeps = []) := by
  exact ⟨rfl, by decide⟩

/-- C4 (amended): for every response status in 400-599 outside the transient
set returned on every attempt, the transport layer raises an `HTTPError`
carrying that status and body only after exhausting the retry ceiling —
3 attempts with backoff sleeps 2 and 4 between them — not immediately on the
first attempt. -/
theorem C4_fatal_status_retried (oracle : Nat → Attempt) (s : Nat)
    (b1 b2 b3 : Body) (hs4 : 400 ≤ s) (hs6 : s < 600)
    (hsr : isRetryableStatus s = false)
    (h1 : oracle 1 = .resp ⟨s, b1⟩) (h2 : oracle 2 = .resp ⟨s, b2⟩)
    (h3 : oracle 3 = .resp ⟨s, b3⟩) :
    request oracle = ⟨.raisedHTTP (some ⟨s, b3⟩), 3, [2, 4]⟩ := by
  have h204 : (s == 204) = false := beq_eq_false_iff_ne.mpr (by omega)
  have hcond : (decide (400 ≤ s) && decide (s < 600)) = true := by
    simp [hs4, hs6]
  show requestGo oracle 3 1 none [] = _
  rw [show (3 : Nat) = 2 + 1 from rfl]
  simp only [requestGo, h1, h2, h3, h204, hsr, hcond, Bool.false_eq_true,
    if_false, if_true, backoffDelay, BACKOFF]
  norm_num

/-- C4 witness: the amended theorem applied to a request answered 404 on
every attempt. -/
theorem C4_witness :
    ((400 : Nat) ≤ 404 ∧ (404 : Nat) < 600 ∧ isRetryableStatus 404 = false) ∧
    request (fun _ => .resp ⟨404, .invalid "nf"⟩) =
      ⟨.raisedHTTP (some ⟨404, .invalid "nf"⟩), 3, [2, 4]⟩ :=
  ⟨⟨by decide, by decide, by decide⟩,
    C4_fatal_status_retried (fun _ => .resp ⟨404, .invalid "nf"⟩) 404
      (.invalid "nf") (.invalid "nf") (.invalid "nf")
      (by decide) (by decide) (by decide) rfl rfl rfl⟩

/-- C6: a request answered with a transient status (429, 500, 502, 503 or
504) on every attempt makes exactly `MAX_RETRY = 3` attempts, with the
backoff delays doubling from `BACKOFF = 2` (the code also sleeps once more
after the final attempt, so the recorded sleeps are 2, 4, 8), and fails with
an `HTTPError` wrapping the last observed response. -/
theorem C6_retry_exhaustion (oracle : Nat → Attempt) (s : Nat)
    (b1 b2 b3 : Body) (hsr : isRetryableStatus s = true)
    (h1 : oracle 1 = .resp ⟨s, b1⟩) (h2 : oracle 2 = .resp ⟨s, b2⟩)
    (h3 : oracle 3 = .resp ⟨s, b3⟩) :
    request oracle = ⟨.raisedHTTP (some ⟨s, b3⟩), MAX_RETRY, [2, 4, 8]⟩ ∧
    [2, 4, 8] = [backoffDelay 1, backoffDelay 2, backoffDelay 3] ∧
    ∀ k, backoffDelay (k + 2) = 2 * backoffDelay (k + 1) := by
  have h204 : (s == 204) = false := beq_eq_false_iff_ne.mpr (by
    simp only [isRetryableStatus, Bool.or_eq_true, beq_iff_eq] at hsr
    omega)
  refine ⟨?_, by decide, ?_⟩
  · show requestGo oracle 3 1 none [] = _
    rw [show (3 : Nat) = 2 + 1 from rfl]
    simp only [requestGo, h1, h2, h3, h204, hsr, Bool.false_eq_true,
      if_false, if_true, backoffDelay, BACKOFF]
    norm_num
    rfl
  · intro k
    simp [backoffDelay, BACKOFF, Nat.pow_succ]
    ring

/-- C6 witness: the theorem applied to a request answered 503 on every
attempt. -/
theorem C6_witness :
    (isRetryableStatus 503 = true) ∧
    (request (fun _ => .resp ⟨503, .invalid "unavailable"⟩) =
      ⟨.raisedHTTP (some ⟨503, .invalid "unavailable"⟩), MAX_RETRY,
       [2, 4, 8]⟩ ∧
    [2, 4, 8] = [backoffDelay 1, backoffDelay 2, backoffDelay 3] ∧
    ∀ k, backoffDelay (k + 2) = 2 * backoffDelay (k + 1)) :=
  ⟨by decide,
    C6_retry_exhaustion (fun _ => .resp ⟨503, .invalid "unavailable"⟩) 503
      (.invalid "unavailable") (.invalid "unavailable")
      (.invalid "unavailable") (by decide) rfl rfl rfl⟩

/-! ### Claim C5 -/

/-- C5: each id missing from a mutation response is probed and classified
into exactly one code by the probe's outcome — probe returns 200 →
`POSSIBLY_UPDATED_BUT_MISSING_IN_RESPONSE` (an error record, never a
success), probe returns 204 or raises a 404 `HTTPError` →
`NOT_FOUND_ON_CHECK`, probe raises a 403 `HTTPError` →
`PERMISSION_DENIED_ON_CHECK`, and any other probe outcome → a
`CHECK_FAILED...` code carrying the underlying status or exception kind.
In particular, for a response omitting submitted ids A, B, C whose probes
return success, not-found and permission-denied respectively, the three
appended outcome records carry exactly the three distinct codes. -/
theorem C5_probe_classification (payload : List PayloadItem)
    (probe : String → ReqResult) (A B C : String) (items : List Item)
    (st : Nat) (im : Option Bool) (bA bB bC : Body)
    (hids : payload.map (fun p => p.id) = [A, B, C])
    (hstne : st ≠ 204)
    (hmA : (gotOf items).contains (pyStrip A) = false)
    (hmB : (gotOf items).contains (pyStrip B) = false)
    (hmC : (gotOf items).contains (pyStrip C) = false)
    (hpA : probe A = .success ⟨200, bA⟩)
    (hpB : probe B = .raisedHTTP (some ⟨404, bB⟩))
    (hpC : probe C = .raisedHTTP (some ⟨403, bC⟩)) :
    update_chunk payload (.success ⟨st, .json items im⟩) probe =
      .ok (items ++
        [⟨some A, none, some "error",
          some "POSSIBLY_UPDATED_BUT_MISSING_IN_RESPONSE",
          some "Record found, may have updated but wasn't in bulk response."⟩,
         ⟨some B, none, some "error", some "NOT_FOUND_ON_CHECK",
          some "Record not found when checking status after missing bulk response."⟩,
         ⟨some C, none, some "error", some "PERMISSION_DENIED_ON_CHECK",
          some "Permission denied when checking status for missing ID."⟩]) ∧
    ("POSSIBLY_UPDATED_BUT_MISSING_IN_RESPONSE" ≠ "NOT_FOUND_ON_CHECK" ∧
      "POSSIBLY_UPDATED_BUT_MISSING_IN_RESPONSE" ≠
        "PERMISSION_DENIED_ON_CHECK" ∧
      "NOT_FOUND_ON_CHECK" ≠ "PERMISSION_DENIED_ON_CHECK") ∧
    (∀ (pr : String → ReqResult) (mid : String),
      (mkProbeItem pr mid).status = some "error") ∧
    (∀ r : Response, r.status = 200 →
      (classifyProbe (.success r)).1 =
        "POSSIBLY_UPDATED_BUT_MISSING_IN_RESPONSE") ∧
    (∀ r : Response, r.status = 204 →
      (classifyProbe (.success r)).1 = "NOT_FOUND_ON_CHECK") ∧
    (∀ b : Body,
      (classifyProbe (.raisedHTTP (some ⟨404, b⟩))).1 = "NOT_FOUND_ON_CHECK") ∧
    (∀ b : Body,
      (classifyProbe (.raisedHTTP (some ⟨403, b⟩))).1 =
        "PERMISSION_DENIED_ON_CHECK") ∧
    (∀ (sc : Nat) (b : Body), sc ≠ 404 → sc ≠ 403 →
      (classifyProbe (.raisedHTTP (some ⟨sc, b⟩))).1 =
        "CHECK_FAILED_HTTPERROR_" ++ toString sc) ∧
    ((classifyProbe (.raisedHTTP none)).1 = "CHECK_FAILED_HTTPERROR_Unknown") ∧
    (∀ m : String,
      (classifyProbe (.raisedExc m)).1 = "CHECK_FAILED_UNKNOWN_ERROR") ∧
    (∀ r : Response, r.status ≠ 200 → r.status ≠ 204 →
      (classifyProbe (.success r)).1 =
        "CHECK_FAILED_STATUS_" ++ toString r.status) := by
  have hst' : (st == 204) = false := beq_eq_false_iff_ne.mpr hstne
  refine ⟨?_, by decide, fun pr mid => rfl, ?_, ?_, fun b => rfl, ?_, ?_, rfl,
    fun m => rfl, ?_⟩
  · have hmA' : pyStrip A ∉ gotOf items := by simpa using hmA
    have hmB' : pyStrip B ∉ gotOf items := by simpa using hmB
    have hmC' : pyStrip C ∉ gotOf items := by simpa using hmC
    simp only [update_chunk, hst', Bool.false_eq_true, if_false]
    rw [hids]
    unfold probeItems missingOf
    simp [hmA', hmB', hmC', mkProbeItem, hpA, hpB, hpC, classifyProbe]
  · intro r hr
    obtain ⟨rs, rb⟩ := r
    subst hr
    rfl
  · intro r hr
    obtain ⟨rs, rb⟩ := r
    subst hr
    rfl
  · intro b
    simp [classifyProbe]
  · intro sc b h404 h403
    have e4 : (sc == 404) = false := beq_eq_false_iff_ne.mpr h404
    have e3 : (sc == 403) = false := beq_eq_false_iff_ne.mpr h403
    simp only [classifyProbe, e4, e3, Bool.false_eq_true, if_false]
    exact String.append_empty _
  · intro r h200 h204
    obtain ⟨rs, rb⟩ := r
    have e0 : (rs == 200) = false := beq_eq_false_iff_ne.mpr h200
    have e4 : (rs == 204) = false := beq_eq_false_iff_ne.mpr h204
    simp only [classifyProbe, e0, e4, Bool.false_eq_true, if_false]
    exact String.append_empty _

/-- C5 witness: the theorem applied to ids "1", "2", "3" all omitted from an
empty response, with probes answering success, not-found and
permission-denied. -/
theorem C5_witness :
    (([(⟨"1", "On Hold"⟩ : PayloadItem), ⟨"2", "On Hold"⟩,
        ⟨"3", "On Hold"⟩].map (fun p => p.id) = ["1", "2", "3"]) ∧
      (200 : Nat) ≠ 204 ∧
      (gotOf []).contains (pyStrip "1") = false ∧
      (gotOf []).contains (pyStrip "2") = false ∧
      (gotOf []).contains (pyStrip "3") = false) ∧
    (update_chunk [⟨"1", "On Hold"⟩, ⟨"2", "On Hold"⟩, ⟨"3", "On Hold"⟩]
        (.success ⟨200, .json [] none⟩)
        (fun mid => if mid = "1" then .success ⟨200, .json [] none⟩
          else if mid = "2" then .raisedHTTP (some ⟨404, .invalid "nf"⟩)
          else .raisedHTTP (some ⟨403, .invalid "denied"⟩)) =
      .ok ([] ++
        [⟨some "1", none, some "error",
          some "POSSIBLY_UPDATED_BUT_MISSING_IN_RESPONSE",
          some "Record found, may have updated but wasn't in bulk response."⟩,
         ⟨some "2", none, some "error", some "NOT_FOUND_ON_CHECK",
          some "Record not found when checking status after missing bulk response."⟩,
         ⟨some "3", none, some "error", some "PERMISSION_DENIED_ON_CHECK",
          some "Permission denied when checking status for missing ID."⟩])) :=
  ⟨⟨by decide, by decide, by decide, by decide, by decide⟩,
    (C5_probe_classification
      [⟨"1", "On Hold"⟩, ⟨"2", "On Hold"⟩, ⟨"3", "On Hold"⟩]
      (fun mid => if mid = "1" then .success ⟨200, .json [] none⟩
        else if mid = "2" then .raisedHTTP (some ⟨404, .invalid "nf"⟩)
        else .raisedHTTP (some ⟨403, .invalid "denied"⟩))
      "1" "2" "3" [] 200 none (.json [] none) (.invalid "nf")
      (.invalid "denied") (by decide) (by decide) (by decide) (by decide)
      (by decide) (by decide) (by decide) (by decide)).1⟩

/-! ### Claim C7 -/

theorem processChunk_puts (w : BulkWorld) (idx : Nat) (c : List Row) :
    (processChunk w idx c).puts =
      if (mkPayload c).isEmpty then [] else [(idx, mkPayload c)] := by
  by_cases hp : (mkPayload c).isEmpty
  · simp [processChunk, hp]
  · cases hu : update_chunk (mkPayload c) (w.mutR idx) (w.probe idx) with
    | ok items => simp [processChunk, hp, hu]
    | error e => cases e <;> simp [processChunk, hp, hu]

theorem bulkGo_puts_length (w : BulkWorld) :
    ∀ (cs : List (List Row)) (idx : Nat),
      (bulkGo w idx cs).puts.length =
        (cs.filter fun c => !(mkPayload c).isEmpty).length := by
  intro cs
  induction cs with
  | nil => intro idx; rfl
  | cons c cs ih =>
    intro idx
    rw [bulkGo_cons]
    show ((processChunk w idx c).puts ++ (bulkGo w (idx + 1) cs).puts).length = _
    rw [List.length_append, processChunk_puts, ih (idx + 1)]
    by_cases hp : (mkPayload c).isEmpty
    · simp [List.filter_cons, hp]
    · have hp' : (mkPayload c).isEmpty = false := by
        cases hq : (mkPayload c).isEmpty
        · rfl
        · exact absurd hq hp
      simp [List.filter_cons, hp']
      omega

theorem mkPayload_ne_empty_of_wf (c : List Row) (hcne : c ≠ [])
    (hok : ∀ r ∈ c, rowOK r = true) : (mkPayload c).isEmpty = false := by
  rw [mkPayload_of_wf c fun r hr => rowOK_wellFormed r (hok r hr)]
  cases c with
  | nil => exact absurd rfl hcne
  | cons x xs => rfl

/-- C7: the number of mutation-submit requests `bulk_update` issues equals
the number of chunks of the raw input whose filtered payload is non-empty
(so malformed rows are dropped from payloads without changing the number or
boundaries of the chunks, and a chunk left empty after filtering issues no
request at all); when every row is well-formed this count is exactly
`ceil(N / CHUNK_SIZE)`. -/
theorem C7_chunk_count (w : BulkWorld) (rows : List Row)
    (hval : badList rows = []) :
    ∃ res : ChunkEffect, bulk_update w rows = .ok res ∧
      res.puts.length = ((chunks CHUNK_SIZE rows).filter
        (fun c => !(mkPayload c).isEmpty)).length ∧
      (∀ k c, (chunks CHUNK_SIZE rows).get? k = some c →
        (mkPayload c).isEmpty = true → (processChunk w (k + 1) c).puts = []) ∧
      (∀ k c, (chunks CHUNK_SIZE rows).get? k = some c →
        (mkPayload c).isEmpty = false →
        (processChunk w (k + 1) c).puts = [(k + 1, mkPayload c)]) ∧
      ((∀ r ∈ rows, rowOK r = true) →
        res.puts.length = (rows.length + CHUNK_SIZE - 1) / CHUNK_SIZE) := by
  have hup : bulk_update w rows = .ok (bulkGo w 1 (chunks CHUNK_SIZE rows)) := by
    simp [bulk_update, hval]
  refine ⟨_, hup, bulkGo_puts_length w (chunks CHUNK_SIZE rows) 1, ?_, ?_, ?_⟩
  · intro k c _ hp
    rw [processChunk_puts, hp]
    rfl
  · intro k c _ hp
    rw [processChunk_puts, hp]
    rfl
  · intro hok
    rw [bulkGo_puts_length w (chunks CHUNK_SIZE rows) 1]
    have hall : ∀ c ∈ chunks CHUNK_SIZE rows, (!(mkPayload c).isEmpty) = true := by
      intro c hc
      have hcne := chunks_ne_nil CHUNK_SIZE CHUNK_SIZE_pos rows c hc
      have hsubl : c.Sublist rows := by
        have := List.sublist_flatten_of_mem hc
        rwa [chunks_flatten CHUNK_SIZE CHUNK_SIZE_pos rows] at this
      have := mkPayload_ne_empty_of_wf c hcne
        (fun r hr => hok r (hsubl.subset hr))
      rw [this]
      rfl
    rw [List.filter_eq_self.mpr hall]
    exact chunks_length CHUNK_SIZE CHUNK_SIZE_pos rows

/-- C7 witness: two well-formed rows make a single chunk and a single
mutation-submit request, `ceil(2/100) = 1`. -/
theorem C7_witness :
    (badList [(⟨some "1", some "On Hold"⟩ : Row),
        ⟨some "2", some "Junk Lead"⟩] = []) ∧
    (∃ res : ChunkEffect,
      bulk_update ⟨fun _ => .success ⟨200, .json [] none⟩,
          fun _ _ => .success ⟨200, .json [] none⟩⟩
        [⟨some "1", some "On Hold"⟩, ⟨some "2", some "Junk Lead"⟩] = .ok res ∧
      res.puts.length = ((chunks CHUNK_SIZE
          [(⟨some "1", some "On Hold"⟩ : Row), ⟨some "2", some "Junk Lead"⟩]).filter
        (fun c => !(mkPayload c).isEmpty)).length ∧
      (∀ k c, (chunks CHUNK_SIZE [(⟨some "1", some "On Hold"⟩ : Row),
          ⟨some "2", some "Junk Lead"⟩]).get? k = some c →
        (mkPayload c).isEmpty = true →
        (processChunk ⟨fun _ => .success ⟨200, .json [] none⟩,
          fun _ _ => .success ⟨200, .json [] none⟩⟩ (k + 1) c).puts = []) ∧
      (∀ k c, (chunks CHUNK_SIZE [(⟨some "1", some "On Hold"⟩ : Row),
          ⟨some "2", some "Junk Lead"⟩]).get? k = some c →
        (mkPayload c).isEmpty = false →
        (processChunk ⟨fun _ => .success ⟨200, .json [] none⟩,
          fun _ _ => .success ⟨200, .json [] none⟩⟩ (k + 1) c).puts =
          [(k + 1, mkPayload c)]) ∧
      ((∀ r ∈ [(⟨some "1", some "On Hold"⟩ : Row), ⟨some "2", some "Junk Lead"⟩],
          rowOK r = true) →
        res.puts.length =
          (([(⟨some "1", some "On Hold"⟩ : Row),
             ⟨some "2", some "Junk Lead"⟩]).length + CHUNK_SIZE - 1) /
            CHUNK_SIZE)) :=
  ⟨by decide,
    C7_chunk_count ⟨fun _ => .success ⟨200, .json [] none⟩,
        fun _ _ => .success ⟨200, .json [] none⟩⟩
      [⟨some "1", some "On Hold"⟩, ⟨some "2", some "Junk Lead"⟩] (by decide)⟩

/-! ### Claim C8 -/

theorem fetchCV_no_config (w : FetchWorld) (fa : Bool) :
    ∀ (fuel page : Nat) (acc : List Item) (m : String),
      fetchCV w fa fuel page acc ≠ .error (.config m) := by
  intro fuel
  induction fuel with
  | zero => intro page acc m h; simp [fetchCV] at h
  | succ fuel ih =>
    intro page acc m h
    simp only [fetchCV] at h
    cases hwp : w.page page with
    | success r =>
      simp only [hwp] at h
      by_cases h204 : (r.status == 204) = true
      · rw [if_pos h204] at h
        exact Except.noConfusion h
      · rw [if_neg h204] at h
        cases hb : r.body with
        | invalid raw =>
          simp only [hb] at h
          exact FetchErr.noConfusion (Except.error.inj h)
        | json data infoMore =>
          simp only [hb] at h
          by_cases hde : data.isEmpty = true
          · rw [if_pos hde] at h
            exact Except.noConfusion h
          · rw [if_neg hde] at h
            split at h
            · exact ih (page + 1) (acc ++ data) m h
            · exact Except.noConfusion h
    | raisedHTTP ropt =>
      simp only [hwp] at h
      exact FetchErr.noConfusion (Except.error.inj h)
    | raisedExc msg =>
      simp only [hwp] at h
      exact FetchErr.noConfusion (Except.error.inj h)

theorem fetchIDs_no_config (w : FetchWorld) :
    ∀ (cs : List (List String)) (i : Nat) (acc : List Item) (m : String),
      fetchIDs w i cs acc ≠ .error (.config m) := by
  intro cs
  induction cs with
  | nil => intro i acc m h; simp [fetchIDs] at h
  | cons c cs ih =>
    intro i acc m h
    simp only [fetchIDs] at h
    cases hwp : w.chunkGet i with
    | success r =>
      simp only [hwp] at h
      by_cases h204 : (r.status == 204) = true
      · rw [if_pos h204] at h
        exact ih (i + 1) acc m h
      · rw [if_neg h204] at h
        cases hb : r.body with
        | invalid raw =>
          simp only [hb] at h
          exact FetchErr.noConfusion (Except.error.inj h)
        | json data infoMore =>
          simp only [hb] at h
          exact ih (i + 1) (acc ++ data) m h
    | raisedHTTP ropt =>
      simp only [hwp] at h
      exact FetchErr.noConfusion (Except.error.inj h)
    | raisedExc msg =>
      simp only [hwp] at h
      exact FetchErr.noConfusion (Except.error.inj h)

/-- C8: `fetch_records` with both a custom-view id and an explicit id list
(both truthy), or with neither, fails with the corresponding configuration
error before consulting the transport world at all (the result is the same
for every world); with exactly one selector it never produces a
configuration error. -/
theorem C8_fetch_selector_exclusivity (w : FetchWorld) (cvid : Option String)
    (ids : Option (List String)) (fetchAll : Bool) (fuel : Nat) :
    (truthyOptStr cvid = true → truthyOptList ids = true →
      fetch_records w cvid ids fetchAll fuel =
        .error (.config "Provide either 'cvid' or 'ids', not both.")) ∧
    (truthyOptStr cvid = false → truthyOptList ids = false →
      fetch_records w cvid ids fetchAll fuel =
        .error (.config "Provide either 'cvid' or 'ids' to fetch records.")) ∧
    (truthyOptStr cvid ≠ truthyOptList ids →
      ∀ m, fetch_records w cvid ids fetchAll fuel ≠ .error (.config m)) := by
  refine ⟨?_, ?_, ?_⟩
  · intro hc hi
    simp [fetch_records, hc, hi]
  · intro hc hi
    simp [fetch_records, hc, hi]
  · intro hx m
    cases hc : truthyOptStr cvid with
    | true =>
      have hi : truthyOptList ids = false := by
        cases hi : truthyOptList ids
        · rfl
        · rw [hc, hi] at hx; exact absurd rfl hx
      have : fetch_records w cvid ids fetchAll fuel = fetchCV w fetchAll fuel 1 [] := by
        simp [fetch_records, hc, hi]
      rw [this]
      exact fetchCV_no_config w fetchAll fuel 1 [] m
    | false =>
      have hi : truthyOptList ids = true := by
        cases hi : truthyOptList ids
        · rw [hc, hi] at hx; exact absurd rfl hx
        · rfl
      have : fetch_records w cvid ids fetchAll fuel =
          fetchIDs w 0 (chunks IDS_PER_REQUEST (ids.getD [])) [] := by
        simp [fetch_records, hc, hi]
      rw [this]
      exact fetchIDs_no_config w (chunks IDS_PER_REQUEST (ids.getD [])) 0 [] m

/-- C8 witness: the theorem applied to a world and all three selector
shapes; the both-provided instance discharges the first implication, the
neither instance the second, and the cvid-only instance the third. -/
theorem C8_witness :
    (truthyOptStr (some "cv1") = true ∧ truthyOptList (some ["1"]) = true ∧
      truthyOptStr (some "cv1") ≠ truthyOptList (none : Option (List String))) ∧
    (fetch_records ⟨fun _ => .success ⟨204, .json [] none⟩,
        fun _ => .success ⟨204, .json [] none⟩⟩
      (some "cv1") (some ["1"]) false 5 =
        .error (.config "Provide either 'cvid' or 'ids', not both.")) ∧
    (fetch_records ⟨fun _ => .success ⟨204, .json [] none⟩,
        fun _ => .success ⟨204, .json [] none⟩⟩
      none none false 5 =
        .error (.config "Provide either 'cvid' or 'ids' to fetch records.")) ∧
    (∀ m, fetch_records ⟨fun _ => .success ⟨204, .json [] none⟩,
        fun _ => .success ⟨204, .json [] none⟩⟩
      (some "cv1") none false 5 ≠ .error (.config m)) :=
  ⟨⟨by decide, by decide, by decide⟩,
    (C8_fetch_selector_exclusivity
      ⟨fun _ => .success ⟨204, .json [] none⟩,
       fun _ => .success ⟨204, .json [] none⟩⟩
      (some "cv1") (some ["1"]) false 5).1 (by decide) (by decide),
    (C8_fetch_selector_exclusivity
      ⟨fun _ => .success ⟨204, .json [] none⟩,
       fun _ => .success ⟨204, .json [] none⟩⟩
      none none false 5).2.1 (by decide) (by decide),
    fun m => (C8_fetch_selector_exclusivity
      ⟨fun _ => .success ⟨204, .json [] none⟩,
       fun _ => .success ⟨204, .json [] none⟩⟩
      (some "cv1") none false 5).2.2 (by decide) m⟩

/-! ### Claim C9 -/

theorem filter_decide_eq_count (l : List String) (i : String) :
    (l.filter fun m => decide (m = i)).length = l.count i := by
  have hfun : (fun m => decide (m = i)) = (fun m : String => m == i) := by
    funext m
    by_cases h : m = i <;> simp [h]
  rw [hfun]
  simp [List.count, List.countP_eq_length_filter]

theorem noContentItem_filter_map (l : List String) (i : String) :
    ((l.map noContentItem).filter fun o => decide (o.id = some i)) =
      (l.filter fun m => decide (m = i)).map noContentItem := by
  induction l with
  | nil => rfl
  | cons m ms ih =>
    simp only [List.map_cons, List.filter_cons]
    by_cases h : m = i
    · subst h
      simp [noContentItem, ih]
    · simp [noContentItem, h, ih]

/-- C9: a non-empty mutation chunk answered with the no-content status 204
yields exactly one error outcome record per submitted id — each with code
`NO_CONTENT` — and performs no reconciliation probe at all (the result is
the same for every probe oracle). -/
theorem C9_no_content (payload : List PayloadItem)
    (probe probe' : String → ReqResult) (b : Body) (hne : payload ≠ []) :
    update_chunk payload (.success ⟨204, b⟩) probe =
      .ok (payload.map fun p => noContentItem p.id) ∧
    update_chunk payload (.success ⟨204, b⟩) probe =
      update_chunk payload (.success ⟨204, b⟩) probe' ∧
    (∀ i, ((payload.map fun p => noContentItem p.id).filter
        fun o => decide (o.id = some i)).length =
      (payload.map fun p => p.id).count i) ∧
    (∀ i, (noContentItem i).status = some "error" ∧
      (noContentItem i).code = some "NO_CONTENT") := by
  have hmain : update_chunk payload (.success ⟨204, b⟩) probe =
      .ok (payload.map fun p => noContentItem p.id) := by
    simp [update_chunk, List.map_map]
  have hmain' : update_chunk payload (.success ⟨204, b⟩) probe' =
      .ok (payload.map fun p => noContentItem p.id) := by
    simp [update_chunk, List.map_map]
  refine ⟨hmain, by rw [hmain, hmain'], fun i => ?_, fun i => ⟨rfl, rfl⟩⟩
  have hmm : (payload.map fun p => noContentItem p.id) =
      (payload.map fun p => p.id).map noContentItem := by
    rw [List.map_map]
    rfl
  rw [hmm, noContentItem_filter_map, List.length_map, filter_decide_eq_count]

/-- C9 witness: a two-id chunk answered 204. -/
theorem C9_witness :
    ([(⟨"1", "On Hold"⟩ : PayloadItem), ⟨"2", "On Hold"⟩] ≠ []) ∧
    (update_chunk [⟨"1", "On Hold"⟩, ⟨"2", "On Hold"⟩]
        (.success ⟨204, .json [] none⟩) (fun _ => .success ⟨200, .json [] none⟩) =
      .ok ([(⟨"1", "On Hold"⟩ : PayloadItem), ⟨"2", "On Hold"⟩].map
        fun p => noContentItem p.id) ∧
    update_chunk [⟨"1", "On Hold"⟩, ⟨"2", "On Hold"⟩]
        (.success ⟨204, .json [] none⟩) (fun _ => .success ⟨200, .json [] none⟩) =
      update_chunk [⟨"1", "On Hold"⟩, ⟨"2", "On Hold"⟩]
        (.success ⟨204, .json [] none⟩)
        (fun _ => .raisedHTTP (some ⟨404, .invalid "nf"⟩)) ∧
    (∀ i, (([(⟨"1", "On Hold"⟩ : PayloadItem), ⟨"2", "On Hold"⟩].map
        fun p => noContentItem p.id).filter
          fun o => decide (o.id = some i)).length =
      ([(⟨"1", "On Hold"⟩ : PayloadItem), ⟨"2", "On Hold"⟩].map
        fun p => p.id).count i) ∧
    (∀ i, (noContentItem i).status = some "error" ∧
      (noContentItem i).code = some "NO_CONTENT")) :=
  ⟨by decide,
    C9_no_content [⟨"1", "On Hold"⟩, ⟨"2", "On Hold"⟩]
      (fun _ => .success ⟨200, .json [] none⟩)
      (fun _ => .raisedHTTP (some ⟨404, .invalid "nf"⟩))
      (.json [] none) (by decide)⟩

/-! ### Claim C10 -/

theorem mkPayload_erase (c : List Row) (r : Row) (hmal : rowWellFormed r = false) :
    mkPayload (c.erase r) = mkPayload c := by
  induction c with
  | nil => rfl
  | cons x xs ih =>
    by_cases hx : x = r
    · subst hx
      rw [List.erase_cons_head]
      simp [mkPayload, List.filterMap_cons, hmal]
    · rw [List.erase_cons_tail]
      · simp only [mkPayload, List.filterMap_cons] at ih ⊢
        cases hwf : rowWellFormed x <;> simp [hwf, ih]
      · simp [hx]

/-- C10: a row filtered out of a chunk's payload (non-numeric id or
absent/falsy target value) contributes nothing to the submitted payload —
removing it leaves the payload unchanged — so whenever the chunk's mutation
request does not raise, the chunk's outcome records are identical with or
without the row (the row produces no outcome record); but when the request
raises, the failure handler iterates the original unfiltered chunk, so the
filtered-out row does receive a chunk-failure outcome record. -/
theorem C10_filtered_rows (w : BulkWorld) (idx : Nat) (chunk : List Row)
    (r : Row) (hr : r ∈ chunk) (hmal : rowWellFormed r = false) :
    mkPayload (chunk.erase r) = mkPayload chunk ∧
    ((∀ e, update_chunk (mkPayload chunk) (w.mutR idx) (w.probe idx) ≠
        .error e) →
      (processChunk w idx chunk).out = (processChunk w idx (chunk.erase r)).out) ∧
    (∀ ropt, (mkPayload chunk).isEmpty = false →
      w.mutR idx = .raisedHTTP ropt →
      chunkFailHTTPItem (ropt.map (·.status)) r ∈ (processChunk w idx chunk).out) ∧
    (∀ msg, (mkPayload chunk).isEmpty = false →
      w.mutR idx = .raisedExc msg →
      chunkFailUnknownItem msg r ∈ (processChunk w idx chunk).out) := by
  have hpe : mkPayload (chunk.erase r) = mkPayload chunk :=
    mkPayload_erase chunk r hmal
  refine ⟨hpe, ?_, ?_, ?_⟩
  · intro hok
    by_cases hemp : (mkPayload chunk).isEmpty = true
    · have hemp' : (mkPayload (chunk.erase r)).isEmpty = true := by
        rw [hpe]; exact hemp
      simp [processChunk, hemp, hemp']
    · have hemp' : ¬(mkPayload (chunk.erase r)).isEmpty = true := by
        rw [hpe]; exact hemp
      cases hu : update_chunk (mkPayload chunk) (w.mutR idx) (w.probe idx) with
      | ok items =>
        have hu' : update_chunk (mkPayload (chunk.erase r)) (w.mutR idx)
            (w.probe idx) = .ok items := by rw [hpe]; exact hu
        simp [processChunk, hemp, hemp', hu, hu']
      | error e => exact absurd hu (hok e)
  · intro ropt hemp hm
    rw [processChunk_httpFail w idx chunk ropt hemp hm]
    exact List.mem_map_of_mem _ hr
  · intro msg hemp hm
    rw [processChunk_excFail w idx chunk msg hemp hm]
    exact List.mem_map_of_mem _ hr

/-- C10 witness: a chunk holding one well-formed row and one row with a
non-numeric id, in a world whose PUT raises a network-level HTTP error; the
theorem applied at this concrete input. -/
theorem C10_witness :
    ((⟨some "abc", some "On Hold"⟩ : Row) ∈
        [(⟨some "1", some "On Hold"⟩ : Row), ⟨some "abc", some "On Hold"⟩] ∧
      rowWellFormed ⟨some "abc", some "On Hold"⟩ = false) ∧
    (mkPayload ([(⟨some "1", some "On Hold"⟩ : Row),
        ⟨some "abc", some "On Hold"⟩].erase ⟨some "abc", some "On Hold"⟩) =
      mkPayload [(⟨some "1", some "On Hold"⟩ : Row),
        ⟨some "abc", some "On Hold"⟩] ∧
    ((∀ e, update_chunk (mkPayload [(⟨some "1", some "On Hold"⟩ : Row),
          ⟨some "abc", some "On Hold"⟩])
        ((⟨fun _ => .raisedHTTP none, fun _ _ => .success ⟨200, .json [] none⟩⟩ :
          BulkWorld).mutR 1)
        ((⟨fun _ => .raisedHTTP none, fun _ _ => .success ⟨200, .json [] none⟩⟩ :
          BulkWorld).probe 1) ≠ .error e) →
      (processChunk ⟨fun _ => .raisedHTTP none,
          fun _ _ => .success ⟨200, .json [] none⟩⟩ 1
        [⟨some "1", some "On Hold"⟩, ⟨some "abc", some "On Hold"⟩]).out =
      (processChunk ⟨fun _ => .raisedHTTP none,
          fun _ _ => .success ⟨200, .json [] none⟩⟩ 1
        ([(⟨some "1", some "On Hold"⟩ : Row),
          ⟨some "abc", some "On Hold"⟩].erase ⟨some "abc", some "On Hold"⟩)).out) ∧
    (∀ ropt, (mkPayload [(⟨some "1", some "On Hold"⟩ : Row),
          ⟨some "abc", some "On Hold"⟩]).isEmpty = false →
      (⟨fun _ => .raisedHTTP none, fun _ _ => .success ⟨200, .json [] none⟩⟩ :
          BulkWorld).mutR 1 = .raisedHTTP ropt →
      chunkFailHTTPItem (ropt.map (·.status)) ⟨some "abc", some "On Hold"⟩ ∈
        (processChunk ⟨fun _ => .raisedHTTP none,
            fun _ _ => .success ⟨200, .json [] none⟩⟩ 1
          [⟨some "1", some "On Hold"⟩, ⟨some "abc", some "On Hold"⟩]).out) ∧
    (∀ msg, (mkPayload [(⟨some "1", some "On Hold"⟩ : Row),
          ⟨some "abc", some "On Hold"⟩]).isEmpty = false →
      (⟨fun _ => .raisedHTTP none, fun _ _ => .success ⟨200, .json [] none⟩⟩ :
          BulkWorld).mutR 1 = .raisedExc msg →
      chunkFailUnknownItem msg ⟨some "abc", some "On Hold"⟩ ∈
        (processChunk ⟨fun _ => .raisedHTTP none,
            fun _ _ => .success ⟨200, .json [] none⟩⟩ 1
          [⟨some "1", some "On Hold"⟩, ⟨some "abc", some "On Hold"⟩]).out)) :=
  ⟨⟨by decide, by decide⟩,
    C10_filtered_rows
      ⟨fun _ => .raisedHTTP none, fun _ _ => .success ⟨200, .json [] none⟩⟩ 1
      [⟨some "1", some "On Hold"⟩, ⟨some "abc", some "On Hold"⟩]
      ⟨some "abc", some "On Hold"⟩ (by decide) (by decide)⟩

end ZohoBulk
